import Mathlib

/-!
# Verification of the pg_logging ring-buffer consumer and level registry

Shallow embedding of `src/pl_funcs.c` and `src/pg_logging.h` from the
`pg_logging` repository: the drain loop of `get_logged_data`, the reset
logic of `reset_counters_in_shmem` / `flush_logged_data`, and the error
level text I/O (`errlevel_in`, `get_errlevel_name`).

Machine integers are modelled as `Nat`: in the C code `readpos` and
`endpos` are `uint32` offsets into a buffer of size `buffer_size`, and
`totallen` is a non-negative `int` for every record a producer can write;
no arithmetic in the modelled paths wraps a 32-bit integer for such
values, so plain `Nat` arithmetic is faithful (C unsigned subtractions
occur only under guards that keep the difference non-negative, and the
Lean guards mirror the C guards exactly).
-/

namespace PgLogging

/-- Header fields of a `CollectedItem` (pg_logging.h lines 12–28), as the
consumer reads them when it interprets the bytes at an arena offset as a
`CollectedItem`.  The trailing flexible array `data` is not part of the
header; payload bytes are read separately from the arena. -/
structure CollectedItem where
  magic : Int
  totallen : Nat
  saved_errno : Int
  elevel : Int
  message_len : Nat
  detail_len : Nat
  hint_len : Nat
deriving DecidableEq

/-- `ITEM_HDR_LEN = offsetof(CollectedItem, data)` with `CHECK_DATA`
defined (pg_logging.h line 9): 4 (magic) + 4 (totallen) + 4 (saved_errno)
+ 1 (elevel) + 3 (padding to align `int`) + 4 + 4 + 4 = 28 bytes. -/
def ITEM_HDR_LEN : Nat := 28

/-- `PG_ITEM_MAGIC` from pg_logging.h line 48. -/
def PG_ITEM_MAGIC : Int := 0x06054AB5

/-- The shared byte arena `hdr->data`, viewed two ways, matching the two
ways the C consumer accesses it: `headerAt p` is the `CollectedItem`
header obtained by casting `hdr->data + p` to `CollectedItem *`
(pl_funcs.c line 140), and `byteAt p` is the raw byte at offset `p`,
read by the payload `memcpy` calls. -/
structure Arena where
  headerAt : Nat → CollectedItem
  byteAt : Nat → Nat

/-- Bytes `memcpy`ed from arena offsets `[start, start+len)`. -/
def copyBytes (a : Arena) (start len : Nat) : List Nat :=
  (List.range len).map (fun i => a.byteAt (start + i))

/-- The consumer-visible state mutated by the drain loop: the shared
`hdr->readpos` and the session-local `usercxt->wraparound` flag. -/
structure DrainState where
  readpos : Nat
  wraparound : Bool
deriving DecidableEq

/-- One output row of `get_logged_data` (pl_funcs.c lines 162–190):
the header fields copied into the palloc'd item that feed the tuple,
the payload bytes assembled by the copy(ies), and the reported
`position` column (`curpos`). -/
structure Record where
  elevel : Int
  saved_errno : Int
  message_len : Nat
  detail_len : Nat
  hint_len : Nat
  payload : List Nat
  position : Nat
deriving DecidableEq

/-- The shared header `LoggingShmemHdr` (pg_logging.h lines 32–40),
restricted to the fields the modelled code touches: `endpos` (the atomic
write cursor), `readpos`, `buffer_size`, and the shared `wraparound`
flag. -/
structure LoggingShmemHdr where
  endpos : Nat
  readpos : Nat
  buffer_size : Nat
  wraparound : Bool
deriving DecidableEq

/-- One iteration of the drain loop body of `get_logged_data`
(pl_funcs.c lines 117–190), for a fixed buffer size `b`:

* lines 125–130: if `readpos + ITEM_HDR_LEN > buffer_size`, reset
  `readpos` to 0, clear the session `wraparound` flag, and `continue`
  (no record emitted: result `none`);
* lines 132–143: remember `curpos`, read the header at `readpos`;
* lines 145–154: if `readpos + totallen >= buffer_size`, copy
  `taillen = buffer_size - readpos - ITEM_HDR_LEN` payload bytes from the
  tail, clear `wraparound`, set
  `readpos := readpos + totallen - buffer_size`, and copy the remaining
  `readpos` (new value) bytes from the arena start;
* lines 155–160: otherwise copy `totallen - ITEM_HDR_LEN` payload bytes
  contiguously and advance `readpos` by `totallen`. -/
def drainStep (b : Nat) (a : Arena) (s : DrainState) : Option Record × DrainState :=
  if s.readpos + ITEM_HDR_LEN > b then
    (none, ⟨0, false⟩)
  else
    let curpos := s.readpos
    let item := a.headerAt s.readpos
    if s.readpos + item.totallen ≥ b then
      let taillen := b - s.readpos - ITEM_HDR_LEN
      let newpos := s.readpos + item.totallen - b
      (some { elevel := item.elevel, saved_errno := item.saved_errno,
              message_len := item.message_len, detail_len := item.detail_len,
              hint_len := item.hint_len,
              payload := copyBytes a (s.readpos + ITEM_HDR_LEN) taillen ++
                         copyBytes a 0 newpos,
              position := curpos },
       ⟨newpos, false⟩)
    else
      (some { elevel := item.elevel, saved_errno := item.saved_errno,
              message_len := item.message_len, detail_len := item.detail_len,
              hint_len := item.hint_len,
              payload := copyBytes a (s.readpos + ITEM_HDR_LEN) (item.totallen - ITEM_HDR_LEN),
              position := curpos },
       ⟨s.readpos + item.totallen, s.wraparound⟩)

/-- The drain loop condition (pl_funcs.c lines 115–116):
`(!wraparound && readpos < until) || (wraparound && readpos > until)`. -/
def drainCond (untilPos : Nat) (s : DrainState) : Bool :=
  (!s.wraparound && decide (s.readpos < untilPos)) ||
  (s.wraparound && decide (s.readpos > untilPos))

/-- The whole drain loop: iterate `drainStep` while `drainCond` holds,
collecting emitted records in order.  `fuel` bounds the number of
iterations (the C loop's termination is not modelled; every theorem
quantifies over `fuel` or fixes it). -/
def drainSession (b : Nat) (a : Arena) (untilPos : Nat) : Nat → DrainState → List Record
  | 0, _ => []
  | Nat.succ fuel, s =>
    if drainCond untilPos s then
      match drainStep b a s with
      | (none, s2) => drainSession b a untilPos fuel s2
      | (some r, s2) => r :: drainSession b a untilPos fuel s2
    else []

/-- Session start (pl_funcs.c lines 84–86): snapshot
`until := pg_atomic_read_u32(&hdr->endpos)` and
`wraparound := until < hdr->readpos`. -/
def beginDrain (h : LoggingShmemHdr) : Nat × Bool :=
  (h.endpos, decide (h.endpos < h.readpos))

/-- `get_logged_data` as a whole: take the snapshot, then run the drain
loop from `hdr->readpos` with the session wrap flag. -/
def get_logged_data (h : LoggingShmemHdr) (a : Arena) (fuel : Nat) : List Record :=
  drainSession h.buffer_size a (beginDrain h).1 fuel ⟨h.readpos, (beginDrain h).2⟩

/-- The CAS retry loop of `reset_counters_in_shmem` (pl_funcs.c lines
46–50).  `curpos` is the expected value held by the caller, `endpos` the
current value of the atomic; `interf` lists the values concurrent
producers install after each failed attempt (empty tail = no further
interference).  `pg_atomic_compare_exchange_u32` stores the current
value into `*expected` on failure, so a failed attempt retries with
`curpos := endpos`.  Returns the final value of the atomic (`none` if
`fuel` ran out). -/
def casLoop : Nat → Nat → Nat → List Nat → Option Nat
  | 0, _, _, _ => none
  | Nat.succ fuel, endpos, curpos, interf =>
    if endpos = curpos then
      some 0
    else
      match interf with
      | [] => casLoop fuel endpos endpos []
      | i :: rest => casLoop fuel i endpos rest

/-- `reset_counters_in_shmem` (pl_funcs.c lines 40–54): read `curpos`
from `endpos`, CAS-loop `endpos` down to 0, then set `readpos := 0`.
Note the function does not touch `hdr->wraparound`. -/
def reset_counters_in_shmem (interf : List Nat) (fuel : Nat)
    (h : LoggingShmemHdr) : Option LoggingShmemHdr :=
  match casLoop fuel h.endpos h.endpos interf with
  | none => none
  | some e => some { h with endpos := e, readpos := 0 }

/-- `flush_logged_data` (pl_funcs.c lines 56–61) just calls
`reset_counters_in_shmem`. -/
def flush_logged_data (interf : List Nat) (fuel : Nat)
    (h : LoggingShmemHdr) : Option LoggingShmemHdr :=
  reset_counters_in_shmem interf fuel h

/-! ## Level registry (`errlevel_in`, `errlevel_out`) -/

/-- `struct ErrorLevel` (pg_logging.h lines 42–45).  An entry with
`text = NULL` in the C word list is modelled as `none` in the list
below. -/
structure ErrorLevel where
  text : String
  code : Int
deriving DecidableEq

/-- Errors raised by the level I/O functions:
`elog(ERROR, "Empty status name")`, `elog(ERROR, "Unknown level name")`
(errlevel_in, pl_funcs.c lines 210–215) and
`elog(ERROR, "Invalid error level name")` (get_errlevel_name, line 37). -/
inductive LevelError where
  | EmptyName
  | UnknownLevel
  | InvalidLevel
deriving DecidableEq

/-- The live entries of the word list (slots whose `text` is not NULL). -/
def liveEntries (wl : List (Option ErrorLevel)) : List ErrorLevel :=
  wl.filterMap id

/-- `get_errlevel_name` (pl_funcs.c lines 27–38): scan the word list in
slot order and return the first entry with non-NULL `text` and matching
`code`; `elog(ERROR, ...)` if none matches. -/
def get_errlevel_name (wl : List (Option ErrorLevel)) (code : Int) : Except LevelError String :=
  match wl with
  | [] => Except.error LevelError.InvalidLevel
  | none :: rest => get_errlevel_name rest code
  | some el :: rest =>
      if el.code = code then Except.ok el.text else get_errlevel_name rest code

/-- Modelled from the spec: `get_errlevel` is the gperf-generated
perfect-hash lookup declared in pg_logging.h line 63 whose definition is
not under `src/`; per spec §4.4 it is a case-sensitive exact match of
the name against the static table, returning NULL when no entry
matches.  Modelled as a first-match scan of the word list. -/
def get_errlevel (wl : List (Option ErrorLevel)) (s : String) : Option ErrorLevel :=
  match wl with
  | [] => none
  | none :: rest => get_errlevel rest s
  | some el :: rest =>
      if el.text = s then some el else get_errlevel rest s

/-- `errlevel_in` (pl_funcs.c lines 203–218): error on an empty name,
error on a failed lookup, otherwise the entry's code. -/
def errlevel_in (wl : List (Option ErrorLevel)) (s : String) : Except LevelError Int :=
  if s.length = 0 then
    Except.error LevelError.EmptyName
  else
    match get_errlevel wl s with
    | none => Except.error LevelError.UnknownLevel
    | some el => Except.ok el.code

/-- `errlevel_out` (pl_funcs.c lines 197–201): text of the code via
`get_errlevel_name`. -/
def errlevel_out (wl : List (Option ErrorLevel)) (code : Int) : Except LevelError String :=
  get_errlevel_name wl code

/-- A concrete arena used by witnesses and counterexamples: every offset
holds the same header with `totallen = t` (and a magic of 0), and byte
`p` of the arena is `p % 256`. -/
def testArena (t : Nat) : Arena :=
  { headerAt := fun _ => ⟨0, t, 7, 20, 1, 0, 0⟩
    byteAt := fun p => p % 256 }

/-! ## Helper lemmas -/

theorem drainSession_eq_nil (b : Nat) (a : Arena) (u fuel : Nat) (s : DrainState)
    (hc : drainCond u s = false) : drainSession b a u fuel s = [] := by
  cases fuel with
  | zero => rfl
  | succ n => simp [drainSession, hc]

theorem casLoop_complete (interf : List Nat) :
    ∀ e c : Nat, casLoop (interf.length + 2) e c interf = some 0 := by
  induction interf with
  | nil =>
    intro e c
    by_cases h : e = c
    · simp [casLoop, h]
    · simp [casLoop, h]
  | cons i rest ih =>
    intro e c
    by_cases h : e = c
    · simp [casLoop, h]
    · simpa [casLoop, h, List.length_cons] using ih i e

theorem reset_no_interference (h : LoggingShmemHdr) :
    reset_counters_in_shmem [] 2 h = some { h with endpos := 0, readpos := 0 } := by
  have hc := casLoop_complete [] h.endpos h.endpos
  simp only [List.length_nil, Nat.zero_add] at hc
  simp [reset_counters_in_shmem, hc]

/-! ## Claim theorems -/

/-- Claim C3: inside the drain loop, when `readpos + ITEM_HDR_LEN >
buffer_size` the consumer sets `readpos` to 0, clears the session
wraparound flag, emits no record for the skipped tail bytes, and
re-evaluates the loop condition (the next iteration runs on the reset
state). -/
theorem drain_physical_wrap (b : Nat) (a : Arena) (u fuel : Nat) (s : DrainState)
    (hw : s.readpos + ITEM_HDR_LEN > b) :
    drainStep b a s = (none, ⟨0, false⟩) ∧
    (drainCond u s = true →
      drainSession b a u (fuel + 1) s = drainSession b a u fuel ⟨0, false⟩) := by
  constructor
  · simp [drainStep, hw]
  · intro hc
    simp [drainSession, hc, drainStep, hw]

/-- Witness for `drain_physical_wrap` at `b = 100`, `readpos = 80`
(80 + 28 > 100), a wrapped session with `until = 70`. -/
theorem drain_physical_wrap_witness :
    drainStep 100 (testArena 40) ⟨80, true⟩ = (none, ⟨0, false⟩) :=
  (drain_physical_wrap 100 (testArena 40) 70 1 ⟨80, true⟩ (by decide)).1

/-- Claim C4 counterexample: `reset_counters_in_shmem` does not clear
the shared `wraparound` flag.  Starting from a header with
`wraparound = true`, the reset leaves `wraparound = true`, contradicting
the claim that reset clears it. -/
theorem reset_keeps_wraparound :
    reset_counters_in_shmem [] 2 ⟨5, 3, 100, true⟩ = some ⟨0, 0, 100, true⟩ ∧
    reset_counters_in_shmem [] 2 ⟨5, 3, 100, true⟩ ≠ some ⟨0, 0, 100, false⟩ := by
  constructor <;> decide

/-- Claim C4 (amended): `reset_counters_in_shmem` brings `endpos` to 0
through a compare-and-swap retry loop that succeeds against any finite
sequence of concurrently interfering producer updates, and sets
`readpos` to 0; it leaves the shared `wraparound` flag unchanged.  (The
surrounding `LWLockAcquire`/`LWLockRelease` pair is not modelled; the
function body runs entirely between them.) -/
theorem reset_sets_cursors (interf : List Nat) (h : LoggingShmemHdr) :
    reset_counters_in_shmem interf (interf.length + 2) h =
      some { h with endpos := 0, readpos := 0 } := by
  have hc := casLoop_complete interf h.endpos h.endpos
  simp [reset_counters_in_shmem, hc]

/-- Claim C5: `flush_logged_data` is idempotent: a drain session started
on the flushed state yields no records (for any fuel and any arena), and
flushing twice equals flushing once. -/
theorem flush_idempotent (h : LoggingShmemHdr) (a : Arena) (fuel : Nat) :
    (flush_logged_data [] 2 h).map (fun h2 => get_logged_data h2 a fuel) = some [] ∧
    (flush_logged_data [] 2 h).bind (flush_logged_data [] 2) = flush_logged_data [] 2 h := by
  have hr := reset_no_interference h
  have hr2 := reset_no_interference { h with endpos := 0, readpos := 0 }
  constructor
  · simp only [flush_logged_data, hr, Option.map_some]
    have : drainCond (beginDrain { h with endpos := 0, readpos := 0 }).1
        ⟨({ h with endpos := 0, readpos := 0 } : LoggingShmemHdr).readpos,
          (beginDrain { h with endpos := 0, readpos := 0 }).2⟩ = false := by
      simp [beginDrain, drainCond]
    simp [get_logged_data, drainSession_eq_nil _ _ _ _ _ this]
  · simp [flush_logged_data, hr, hr2]

/-- Claim C1 counterexample: at `readCursor + totalLength = bufferSize`
(no byte of the record lies past the arena end, so the record "would
exceed bufferSize" is false), the code nevertheless takes the two-part
branch: with `bufferSize = 100`, `readpos = 50`, `totallen = 50` the
resulting state is `⟨0, false⟩`, not the claimed contiguous-branch state
`⟨readpos + totallen, wraparound⟩ = ⟨100, true⟩`. -/
theorem split_taken_at_exact_end :
    ¬ (50 + ((testArena 50).headerAt 50).totallen > 100) ∧
    (drainStep 100 (testArena 50) ⟨50, true⟩).2 = ⟨0, false⟩ ∧
    (drainStep 100 (testArena 50) ⟨50, true⟩).2 ≠
      ⟨50 + ((testArena 50).headerAt 50).totallen, true⟩ := by
  refine ⟨by decide, by decide, by decide⟩

/-- Claim C1 (amended): for a record whose header fits
(`readpos + ITEM_HDR_LEN ≤ bufferSize`) and whose `totallen` is at most
`bufferSize`, the drain step takes the two-part path iff
`readpos + totallen` reaches **or equals** `bufferSize` (the source
condition is `>=`, not `>`).  In the two-part case it copies
`bufferSize - readpos - ITEM_HDR_LEN` payload bytes from the tail, then
the remaining `totallen - ITEM_HDR_LEN - tailBytes` bytes from the
arena start, clears the session wraparound flag, and sets
`readpos := (readpos + totallen) % bufferSize`.  In the contiguous case
(`readpos + totallen < bufferSize`) it copies the whole payload in one
piece, advances `readpos` by `totallen`, and the new `readpos` never
exceeds `bufferSize`. -/
theorem drain_record_extraction (b : Nat) (a : Arena) (s : DrainState)
    (item : CollectedItem) (hitem : a.headerAt s.readpos = item)
    (hfit : s.readpos + ITEM_HDR_LEN ≤ b) (hlen : item.totallen ≤ b) :
    (b ≤ s.readpos + item.totallen →
      drainStep b a s =
        (some { elevel := item.elevel, saved_errno := item.saved_errno,
                message_len := item.message_len, detail_len := item.detail_len,
                hint_len := item.hint_len,
                payload := copyBytes a (s.readpos + ITEM_HDR_LEN) (b - s.readpos - ITEM_HDR_LEN) ++
                           copyBytes a 0 (item.totallen - ITEM_HDR_LEN - (b - s.readpos - ITEM_HDR_LEN)),
                position := s.readpos },
         ⟨(s.readpos + item.totallen) % b, false⟩)) ∧
    (s.readpos + item.totallen < b →
      drainStep b a s =
        (some { elevel := item.elevel, saved_errno := item.saved_errno,
                message_len := item.message_len, detail_len := item.detail_len,
                hint_len := item.hint_len,
                payload := copyBytes a (s.readpos + ITEM_HDR_LEN) (item.totallen - ITEM_HDR_LEN),
                position := s.readpos },
         ⟨s.readpos + item.totallen, s.wraparound⟩) ∧
      s.readpos + item.totallen ≤ b) := by
  have hI : ITEM_HDR_LEN = 28 := rfl
  constructor
  · intro hge
    have hw : ¬ (s.readpos + ITEM_HDR_LEN > b) := by omega
    have hmod : s.readpos + item.totallen - b = (s.readpos + item.totallen) % b := by
      rw [Nat.mod_eq_sub_mod hge, Nat.mod_eq_of_lt (by omega)]
    have hhead : s.readpos + item.totallen - b =
        item.totallen - ITEM_HDR_LEN - (b - s.readpos - ITEM_HDR_LEN) := by omega
    simp only [drainStep, if_neg hw, hitem, ge_iff_le, if_pos hge]
    rw [← hhead, ← hmod]
  · intro hlt
    have hw : ¬ (s.readpos + ITEM_HDR_LEN > b) := by omega
    have hge : ¬ (s.readpos + item.totallen ≥ b) := by omega
    refine ⟨?_, by omega⟩
    simp only [drainStep, if_neg hw, hitem, ge_iff_le, if_neg (by omega : ¬ b ≤ s.readpos + item.totallen)]

/-- Witness for `drain_record_extraction`: `b = 100`, header
`totallen = 60` at `readpos = 50` (two-part case: 50 + 60 ≥ 100). -/
theorem drain_record_extraction_witness :
    drainStep 100 (testArena 60) ⟨50, true⟩ =
      (some { elevel := (20 : Int), saved_errno := (7 : Int),
              message_len := 1, detail_len := 0, hint_len := 0,
              payload := copyBytes (testArena 60) (50 + ITEM_HDR_LEN) (100 - 50 - ITEM_HDR_LEN) ++
                         copyBytes (testArena 60) 0 (60 - ITEM_HDR_LEN - (100 - 50 - ITEM_HDR_LEN)),
              position := 50 },
       ⟨(50 + 60) % 100, false⟩) :=
  (drain_record_extraction 100 (testArena 60) ⟨50, true⟩ ⟨0, 60, 7, 20, 1, 0, 0⟩
    (by decide) (by decide) (by decide)).1 (by decide)

/-- A second concrete arena whose headers carry the genuine
`PG_ITEM_MAGIC` marker; otherwise identical to `testArena`. -/
def testArenaG (t : Nat) : Arena :=
  { headerAt := fun _ => ⟨PG_ITEM_MAGIC, t, 7, 20, 1, 0, 0⟩
    byteAt := fun p => p % 256 }

/-- `headerAt` with the magic field scrubbed; two arenas agreeing up to
`eraseMagic` differ at most in their magic bytes. -/
def eraseMagic (it : CollectedItem) : CollectedItem := { it with magic := 0 }

/-- Every record in the emitted list was read at a position whose header
fits before the arena end, and lies strictly inside the snapshot region:
below `until`, or above `until` when the session started wrapped. -/
theorem drainSession_mem_position (b : Nat) (a : Arena) (u : Nat) :
    ∀ (fuel : Nat) (s : DrainState), ∀ r ∈ drainSession b a u fuel s,
      r.position + ITEM_HDR_LEN ≤ b ∧
      (r.position < u ∨ (s.wraparound = true ∧ u < r.position)) := by
  intro fuel
  induction fuel with
  | zero =>
    intro s r hr
    simp [drainSession] at hr
  | succ n ih =>
    intro s r hr
    rw [drainSession] at hr
    by_cases hc : drainCond u s = true
    · rw [if_pos hc] at hr
      by_cases h1 : s.readpos + ITEM_HDR_LEN > b
      · simp only [drainStep, if_pos h1] at hr
        obtain ⟨hmem, hpos⟩ := ih ⟨0, false⟩ r hr
        exact ⟨hmem, Or.inl (hpos.resolve_right (by simp))⟩
      · have hcond : s.readpos < u ∨ (s.wraparound = true ∧ u < s.readpos) := by
          have hc2 := hc
          simp only [drainCond, Bool.or_eq_true, Bool.and_eq_true, Bool.not_eq_true',
            decide_eq_true_eq] at hc2
          rcases hc2 with ⟨_, h⟩ | ⟨hw, h⟩
          · exact Or.inl h
          · exact Or.inr ⟨hw, h⟩
        by_cases h2 : s.readpos + (a.headerAt s.readpos).totallen ≥ b
        · simp only [drainStep, if_neg h1, ge_iff_le, if_pos h2] at hr
          rcases List.mem_cons.mp hr with rfl | htail
          · exact ⟨show s.readpos + ITEM_HDR_LEN ≤ b by omega, hcond⟩
          · obtain ⟨hmem, hpos⟩ := ih ⟨s.readpos + (a.headerAt s.readpos).totallen - b, false⟩ r htail
            exact ⟨hmem, Or.inl (hpos.resolve_right (by simp))⟩
        · simp only [drainStep, if_neg h1, ge_iff_le, if_neg h2] at hr
          rcases List.mem_cons.mp hr with rfl | htail
          · exact ⟨show s.readpos + ITEM_HDR_LEN ≤ b by omega, hcond⟩
          · obtain ⟨hmem, hpos⟩ := ih ⟨s.readpos + (a.headerAt s.readpos).totallen, s.wraparound⟩ r htail
            exact ⟨hmem, hpos⟩
    · rw [if_neg hc] at hr
      simp at hr

/-- Claim C2: a drain session snapshots `until := endpos` and
`startWrapped := until < readpos` at its start; the loop body runs
exactly while `(not wrapped and readpos < until) or (wrapped and
readpos > until)` holds (empty output once it fails, one `drainStep`
unfolding while it holds); and every emitted record was read strictly
inside the snapshot region (below `until`, or above `until` only while
the session is still wrapped), so data written at or past the `until`
snapshot is never emitted by this session. -/
theorem drain_snapshot (h : LoggingShmemHdr) (a : Arena) (b u fuel : Nat) (s : DrainState) :
    beginDrain h = (h.endpos, decide (h.endpos < h.readpos)) ∧
    (drainCond u s = false → drainSession b a u fuel s = []) ∧
    (drainCond u s = true →
      drainSession b a u (fuel + 1) s =
        (match drainStep b a s with
         | (none, s2) => drainSession b a u fuel s2
         | (some r, s2) => r :: drainSession b a u fuel s2)) ∧
    (∀ r ∈ drainSession b a u fuel s,
      r.position < u ∨ (s.wraparound = true ∧ u < r.position)) := by
  refine ⟨rfl, drainSession_eq_nil b a u fuel s, ?_, ?_⟩
  · intro hc
    rw [drainSession, if_pos hc]
  · intro r hr
    exact (drainSession_mem_position b a u fuel s r hr).2

/-- Witness for `drain_snapshot`: with `until = 0` the loop condition is
false at the start state, so the session is empty. -/
theorem drain_snapshot_witness :
    drainSession 100 (testArena 40) 0 5 ⟨0, false⟩ = [] :=
  (drain_snapshot ⟨0, 0, 100, false⟩ (testArena 40) 100 0 5 ⟨0, false⟩).2.1 (by decide)

/-- Claim C9: an emitted record's `position` is the value of `readpos`
at the start of that record, before any advancement; and every position
reported by a drain session lies in `[0, buffer_size)`. -/
theorem drain_position_reported (b : Nat) (a : Arena) (u fuel : Nat) (s : DrainState)
    (r : Record) (s2 : DrainState) (he : drainStep b a s = (some r, s2)) :
    r.position = s.readpos ∧
    (∀ r2 ∈ drainSession b a u fuel s, r2.position < b) := by
  constructor
  · by_cases h1 : s.readpos + ITEM_HDR_LEN > b
    · simp [drainStep, h1] at he
    · by_cases h2 : s.readpos + (a.headerAt s.readpos).totallen ≥ b
      · simp only [drainStep, if_neg h1, ge_iff_le, if_pos h2, Prod.mk.injEq,
          Option.some.injEq] at he
        obtain ⟨h3, _⟩ := he
        rw [← h3]
      · simp only [drainStep, if_neg h1, ge_iff_le, if_neg h2, Prod.mk.injEq,
          Option.some.injEq] at he
        obtain ⟨h3, _⟩ := he
        rw [← h3]
  · intro r2 hr
    have hmem := (drainSession_mem_position b a u fuel s r2 hr).1
    have hI : ITEM_HDR_LEN = 28 := rfl
    omega

/-- Witness for `drain_position_reported`: the record extracted at
`readpos = 0` in a 100-byte buffer reports position 0 < 100. -/
theorem drain_position_reported_witness :
    (⟨20, 7, 1, 0, 0, copyBytes (testArena 40) 28 12, 0⟩ : Record).position = 0 :=
  (drain_position_reported 100 (testArena 40) 40 2 ⟨0, false⟩
    ⟨20, 7, 1, 0, 0, copyBytes (testArena 40) 28 12, 0⟩ ⟨40, false⟩ (by decide)).1

/-- Claim C10: if `readpos < buffer_size` and the header read at
`readpos` has `0 < totallen ≤ buffer_size`, a drain step keeps
`readpos` in `[0, buffer_size)`; a reset puts it at 0, also in range. -/
theorem readpos_stays_in_bounds (b : Nat) (a : Arena) (s : DrainState)
    (h1 : s.readpos < b) (h2 : 0 < (a.headerAt s.readpos).totallen)
    (h3 : (a.headerAt s.readpos).totallen ≤ b) :
    (drainStep b a s).2.readpos < b ∧
    (∀ hh : LoggingShmemHdr, ∃ hh2, reset_counters_in_shmem [] 2 hh = some hh2 ∧
        hh2.readpos = 0 ∧ hh2.readpos < b) := by
  have hI : ITEM_HDR_LEN = 28 := rfl
  constructor
  · by_cases hw : s.readpos + ITEM_HDR_LEN > b
    · simp only [drainStep, if_pos hw]
      omega
    · by_cases hs : s.readpos + (a.headerAt s.readpos).totallen ≥ b
      · simp only [drainStep, if_neg hw, ge_iff_le, if_pos hs]
        omega
      · simp only [drainStep, if_neg hw, ge_iff_le, if_neg hs]
        omega
  · intro hh
    exact ⟨_, reset_no_interference hh, rfl, show (0 : Nat) < b by omega⟩

/-- Witness for `readpos_stays_in_bounds` at `b = 100`, a header with
`totallen = 40` at `readpos = 0`. -/
theorem readpos_stays_in_bounds_witness :
    (drainStep 100 (testArena 40) ⟨0, false⟩).2.readpos < 100 :=
  (readpos_stays_in_bounds 100 (testArena 40) ⟨0, false⟩
    (by decide) (by decide) (by decide)).1

/-- Claim C6 counterexample: the drain performs no integrity check even
though `CHECK_DATA` compiles the magic field in.  A record whose header
magic is 0 ≠ `PG_ITEM_MAGIC` is parsed and emitted normally, and the
session continues instead of failing. -/
theorem corrupt_magic_still_emitted :
    ((testArena 40).headerAt 0).magic ≠ PG_ITEM_MAGIC ∧
    (drainStep 100 (testArena 40) ⟨0, false⟩).1.isSome = true ∧
    drainSession 100 (testArena 40) 40 2 ⟨0, false⟩ ≠ [] := by
  refine ⟨by decide, by decide, by decide⟩

/-- A drain step reads nothing but the non-magic header fields and the
payload bytes: arenas that agree up to `eraseMagic` and on raw bytes
produce identical steps. -/
theorem drainStep_magic_free (b : Nat) (a1 a2 : Arena)
    (hh : ∀ p, eraseMagic (a1.headerAt p) = eraseMagic (a2.headerAt p))
    (hb : a1.byteAt = a2.byteAt) (s : DrainState) :
    drainStep b a1 s = drainStep b a2 s := by
  have h := hh s.readpos
  simp only [eraseMagic, CollectedItem.mk.injEq, true_and] at h
  obtain ⟨ht, hsn, he, hml, hdl, hhl⟩ := h
  have hcopy : copyBytes a1 = copyBytes a2 := by
    funext st len
    simp [copyBytes, hb]
  by_cases hw : s.readpos + ITEM_HDR_LEN > b
  · simp [drainStep, hw]
  · simp only [drainStep, if_neg hw]
    rw [ht, he, hsn, hml, hdl, hhl, hcopy]

/-- Claim C6 (amended): the drain never validates the record magic (nor
`totallen` consistency): its output is entirely independent of the magic
field, and no corrupt-record failure path exists.  Two arenas that agree
on everything except the magic field yield identical session output. -/
theorem drain_ignores_magic (b u : Nat) (a1 a2 : Arena) (s : DrainState) (fuel : Nat)
    (hh : ∀ p, eraseMagic (a1.headerAt p) = eraseMagic (a2.headerAt p))
    (hb : a1.byteAt = a2.byteAt) :
    drainSession b a1 u fuel s = drainSession b a2 u fuel s := by
  induction fuel generalizing s with
  | zero => rfl
  | succ n ih =>
    rw [drainSession, drainSession, drainStep_magic_free b a1 a2 hh hb s]
    by_cases hc : drainCond u s = true
    · rw [if_pos hc, if_pos hc]
      rcases hd : drainStep b a2 s with ⟨o, s2⟩
      cases o <;> simp [ih]
    · rw [if_neg hc, if_neg hc]

/-- Witness for `drain_ignores_magic`: the session over `testArena`
(magic 0) equals the session over `testArenaG` (magic
`PG_ITEM_MAGIC`). -/
theorem drain_ignores_magic_witness :
    drainSession 100 (testArena 40) 40 3 ⟨0, false⟩ =
      drainSession 100 (testArenaG 40) 40 3 ⟨0, false⟩ :=
  drain_ignores_magic 100 40 (testArena 40) (testArenaG 40) ⟨0, false⟩ 3
    (fun _ => rfl) rfl

/-! ## Level registry lemmas -/

theorem liveEntries_cons_none (rest : List (Option ErrorLevel)) :
    liveEntries (none :: rest) = liveEntries rest := by
  simp [liveEntries]

theorem liveEntries_cons_some (el : ErrorLevel) (rest : List (Option ErrorLevel)) :
    liveEntries (some el :: rest) = el :: liveEntries rest := by
  simp [liveEntries]

theorem get_errlevel_eq_none_iff (wl : List (Option ErrorLevel)) (s : String) :
    get_errlevel wl s = none ↔ ∀ el ∈ liveEntries wl, el.text ≠ s := by
  induction wl with
  | nil => simp [get_errlevel, liveEntries]
  | cons o rest ih =>
    cases o with
    | none =>
      rw [liveEntries_cons_none]
      simpa [get_errlevel] using ih
    | some e =>
      rw [liveEntries_cons_some]
      by_cases he : e.text = s
      · simp only [get_errlevel, if_pos he]
        constructor
        · intro hcontra
          exact absurd hcontra (by simp)
        · intro hall
          exact absurd he (hall e (List.mem_cons_self e _))
      · simp only [get_errlevel, if_neg he]
        rw [ih, List.forall_mem_cons]
        simp [he]

theorem get_errlevel_eq_some (wl : List (Option ErrorLevel)) (s : String)
    (el : ErrorLevel) (h : get_errlevel wl s = some el) :
    el ∈ liveEntries wl ∧ el.text = s := by
  induction wl with
  | nil => simp [get_errlevel] at h
  | cons o rest ih =>
    cases o with
    | none =>
      rw [liveEntries_cons_none]
      exact ih (by simpa [get_errlevel] using h)
    | some e =>
      rw [liveEntries_cons_some]
      by_cases he : e.text = s
      · simp only [get_errlevel, if_pos he] at h
        obtain rfl := Option.some.inj h
        exact ⟨List.mem_cons_self _ _, he⟩
      · simp only [get_errlevel, if_neg he] at h
        obtain ⟨h1, h2⟩ := ih h
        exact ⟨List.mem_cons_of_mem _ h1, h2⟩

theorem get_errlevel_first_match (wl : List (Option ErrorLevel)) (s : String)
    (el : ErrorLevel)
    (hp : (liveEntries wl).Pairwise (fun x y => x.text ≠ y.text))
    (hmem : el ∈ liveEntries wl) (hname : el.text = s) :
    get_errlevel wl s = some el := by
  induction wl with
  | nil => simp [liveEntries] at hmem
  | cons o rest ih =>
    cases o with
    | none =>
      rw [liveEntries_cons_none] at hp hmem
      simpa [get_errlevel] using ih hp hmem
    | some e =>
      rw [liveEntries_cons_some] at hp hmem
      by_cases he : e.text = s
      · rcases List.mem_cons.mp hmem with rfl | hmem2
        · simp [get_errlevel, he]
        · exfalso
          exact (List.pairwise_cons.mp hp).1 el hmem2 (he.trans hname.symm)
      · rcases List.mem_cons.mp hmem with rfl | hmem2
        · exact absurd hname he
        · simp only [get_errlevel, if_neg he]
          exact ih (List.pairwise_cons.mp hp).2 hmem2

theorem get_errlevel_name_cases (wl : List (Option ErrorLevel)) (c : Int) :
    (get_errlevel_name wl c = Except.error LevelError.InvalidLevel ∧
      ∀ el ∈ liveEntries wl, el.code ≠ c) ∨
    (∃ el, el ∈ liveEntries wl ∧ el.code = c ∧
      get_errlevel_name wl c = Except.ok el.text) := by
  induction wl with
  | nil =>
    left
    exact ⟨rfl, by simp [liveEntries]⟩
  | cons o rest ih =>
    cases o with
    | none =>
      rw [liveEntries_cons_none]
      simpa [get_errlevel_name] using ih
    | some e =>
      rw [liveEntries_cons_some]
      by_cases he : e.code = c
      · right
        exact ⟨e, List.mem_cons_self e _, he, by simp [get_errlevel_name, he]⟩
      · rcases ih with ⟨h1, h2⟩ | ⟨el, hm, hc2, hok⟩
        · left
          refine ⟨by simpa [get_errlevel_name, he] using h1, ?_⟩
          intro x hx
          rcases List.mem_cons.mp hx with rfl | hx2
          · exact he
          · exact h2 x hx2
        · right
          exact ⟨el, List.mem_cons_of_mem _ hm, hc2,
            by simpa [get_errlevel_name, he] using hok⟩

theorem get_errlevel_name_unique (wl : List (Option ErrorLevel)) (c : Int)
    (el : ErrorLevel)
    (hp : (liveEntries wl).Pairwise (fun x y => x.code ≠ y.code))
    (hmem : el ∈ liveEntries wl) (hc : el.code = c) :
    get_errlevel_name wl c = Except.ok el.text := by
  induction wl with
  | nil => simp [liveEntries] at hmem
  | cons o rest ih =>
    cases o with
    | none =>
      rw [liveEntries_cons_none] at hp hmem
      simpa [get_errlevel_name] using ih hp hmem
    | some e =>
      rw [liveEntries_cons_some] at hp hmem
      by_cases he : e.code = c
      · rcases List.mem_cons.mp hmem with rfl | hmem2
        · simp [get_errlevel_name, he]
        · exfalso
          exact (List.pairwise_cons.mp hp).1 el hmem2 (he.trans hc.symm)
      · rcases List.mem_cons.mp hmem with rfl | hmem2
        · exact absurd hc he
        · simp only [get_errlevel_name, if_neg he]
          exact ih (List.pairwise_cons.mp hp).2 hmem2

/-- A short concrete word list used by the registry witnesses. -/
def wordlistTest : List (Option ErrorLevel) :=
  [some ⟨"error", 20⟩, none, some ⟨"warning", 19⟩]

/-- Claim C7: `errlevel_in` fails with `EmptyName` on a zero-length
name, fails with `UnknownLevel` when no live entry's text equals the
name (case-sensitive, exact), and otherwise returns a matching entry's
code; `errlevel_out` fails with `InvalidLevel` when no live entry has
the code, and otherwise returns a matching entry's name.  The
`get_errlevel` lookup itself is modelled from the spec (its
gperf-generated source is not in `src/`). -/
theorem errlevel_text_io (wl : List (Option ErrorLevel)) (s : String) (c : Int) :
    (s.length = 0 → errlevel_in wl s = Except.error LevelError.EmptyName) ∧
    (s.length ≠ 0 → (∀ el ∈ liveEntries wl, el.text ≠ s) →
      errlevel_in wl s = Except.error LevelError.UnknownLevel) ∧
    (s.length ≠ 0 → ∀ el0 ∈ liveEntries wl, el0.text = s →
      ∃ el, el ∈ liveEntries wl ∧ el.text = s ∧ errlevel_in wl s = Except.ok el.code) ∧
    ((∀ el ∈ liveEntries wl, el.code ≠ c) →
      errlevel_out wl c = Except.error LevelError.InvalidLevel) ∧
    (∀ el0 ∈ liveEntries wl, el0.code = c →
      ∃ el, el ∈ liveEntries wl ∧ el.code = c ∧ errlevel_out wl c = Except.ok el.text) := by
  refine ⟨?_, ?_, ?_, ?_, ?_⟩
  · intro hz
    simp [errlevel_in, hz]
  · intro hz hnone
    have h0 : get_errlevel wl s = none := (get_errlevel_eq_none_iff wl s).mpr hnone
    simp [errlevel_in, hz, h0]
  · intro hz el0 hm0 ht0
    rcases hop : get_errlevel wl s with _ | el
    · exact absurd ht0 ((get_errlevel_eq_none_iff wl s).mp hop el0 hm0)
    · obtain ⟨hm, ht⟩ := get_errlevel_eq_some wl s el hop
      exact ⟨el, hm, ht, by simp [errlevel_in, hz, hop]⟩
  · intro hnone
    rcases get_errlevel_name_cases wl c with ⟨h1, _⟩ | ⟨el, hm, hc2, _⟩
    · exact h1
    · exact absurd hc2 (hnone el hm)
  · intro el0 hm0 hc0
    rcases get_errlevel_name_cases wl c with ⟨_, h2⟩ | ⟨el, hm, hc2, hok⟩
    · exact absurd hc0 (h2 el0 hm0)
    · exact ⟨el, hm, hc2, hok⟩

/-- Witness for `errlevel_text_io`: the empty name, an unknown name, and
an unused code on a concrete word list. -/
theorem errlevel_text_io_witness :
    errlevel_in wordlistTest "" = Except.error LevelError.EmptyName ∧
    errlevel_in wordlistTest "bogus" = Except.error LevelError.UnknownLevel ∧
    errlevel_out wordlistTest 99 = Except.error LevelError.InvalidLevel :=
  ⟨(errlevel_text_io wordlistTest "" 99).1 rfl,
   (errlevel_text_io wordlistTest "bogus" 99).2.1 (by decide) (by decide),
   (errlevel_text_io wordlistTest "" 99).2.2.2.1 (by decide)⟩

/-- Claim C8: on a registry whose live entries have pairwise-distinct
names and pairwise-distinct codes (the spec's static name↔code
mapping; the concrete table is not in `src/`), the round trip holds:
`errlevel_out (errlevel_in n) = n` for every registered nonempty name
`n`. -/
theorem level_roundtrip (wl : List (Option ErrorLevel)) (n : String) (el : ErrorLevel)
    (hpc : (liveEntries wl).Pairwise (fun x y => x.code ≠ y.code))
    (hpt : (liveEntries wl).Pairwise (fun x y => x.text ≠ y.text))
    (hmem : el ∈ liveEntries wl) (hname : el.text = n) (hn : n.length ≠ 0) :
    errlevel_in wl n = Except.ok el.code ∧
    errlevel_out wl el.code = Except.ok n := by
  have h1 : get_errlevel wl n = some el := get_errlevel_first_match wl n el hpt hmem hname
  constructor
  · simp [errlevel_in, hn, h1]
  · rw [errlevel_out, get_errlevel_name_unique wl el.code el hpc hmem rfl, hname]

/-- Witness for `level_roundtrip` on the concrete word list: the name
`"error"` maps to code 20 and back. -/
theorem level_roundtrip_witness :
    errlevel_in wordlistTest "error" = Except.ok (⟨"error", 20⟩ : ErrorLevel).code ∧
    errlevel_out wordlistTest (⟨"error", 20⟩ : ErrorLevel).code = Except.ok "error" :=
  level_roundtrip wordlistTest "error" ⟨"error", 20⟩
    (by decide) (by decide) (by decide) rfl (by decide)

end PgLogging
